import Mathlib

/-!
Shallow embedding of the cursor-flow camera-animation and timeline-interaction
engine: the zoom/clip data model, the active-zoom resolution, the camera
targeting of `EditorCanvas`, the geometry helpers, the split operation, the
pointer-driven drag state machine and the playback/export tick.

Times, pixel coordinates and scales are modelled as rationals; lists keep the
order of the TypeScript arrays.
-/

/-- A timeline-anchored zoom instruction (`ZoomEvent` in the source). -/
structure ZoomEvent where
  id : String
  startTime : ℚ
  duration : ℚ
  x : ℚ
  y : ℚ
  scale : ℚ
deriving DecidableEq, Repr

/-- Clip discriminator: `type`, video or title. -/
inductive ClipType where
  | video
  | title
deriving DecidableEq, Repr

/-- A timeline clip (`VideoClip` in the source).  The style payload is kept
opaque as a string. -/
structure VideoClip where
  id : String
  startTime : ℚ
  duration : ℚ
  name : String
  type : ClipType
  text : Option String
  titleStyle : Option String
  source : Option String
  width : Option ℚ
  height : Option ℚ
deriving DecidableEq, Repr

/-- Closed-interval membership used by the active-zoom resolution:
`currentTime >= z.startTime && currentTime <= z.startTime + z.duration`. -/
def zoomContains (t : ℚ) (z : ZoomEvent) : Bool :=
  decide (z.startTime ≤ t) && decide (t ≤ z.startTime + z.duration)

/-- `EditorCanvas`: `zooms.find(z => currentTime >= z.startTime && currentTime
<= z.startTime + z.duration)`. -/
def activeZoom (zooms : List ZoomEvent) (currentTime : ℚ) : Option ZoomEvent :=
  zooms.find? (zoomContains currentTime)

/-- Camera target emitted by the zoom-targeting effect of `EditorCanvas`. -/
structure CamTarget where
  tx : ℚ
  ty : ℚ
  scale : ℚ
deriving DecidableEq, Repr

/-- Target computation for an active zoom: focus point relative to center,
ideal translation `-focusPx * scale`, then per-axis clamp to
`±(dimension/2)*(scale-1)`. -/
def zoomCameraTarget (z : ZoomEvent) (W H : ℚ) : CamTarget :=
  let focusPxX := ((z.x - 50) / 100) * W
  let focusPxY := ((z.y - 50) / 100) * H
  let s := z.scale
  let idealCamX := -focusPxX * s
  let idealCamY := -focusPxY * s
  let maxOffsetX := (W / 2) * (s - 1)
  let maxOffsetY := (H / 2) * (s - 1)
  { tx := max (-maxOffsetX) (min maxOffsetX idealCamX)
    ty := max (-maxOffsetY) (min maxOffsetY idealCamY)
    scale := s }

/-- Combined camera target: the zoom-targeting effect together with the scale
effect (`scale = activeZoom ? activeZoom.scale : contentScale`, translation
reset to `(0,0)` when no zoom is active). -/
def cameraTarget (az : Option ZoomEvent) (W H contentScale : ℚ) : CamTarget :=
  match az with
  | some z => zoomCameraTarget z W H
  | none => { tx := 0, ty := 0, scale := contentScale }

/-- Open-interval membership used by `handleSplit`:
`currentTime > c.startTime && currentTime < c.startTime + c.duration`. -/
def clipContainsOpen (t : ℚ) (c : VideoClip) : Bool :=
  decide (c.startTime < t) && decide (t < c.startTime + c.duration)

/-- First half of a split: `{ ...clipToSplit, duration: firstDuration }`. -/
def splitFirst (c : VideoClip) (t : ℚ) : VideoClip :=
  { c with duration := t - c.startTime }

/-- Second half of a split: a fresh identity at `startTime = t` carrying the
remaining duration and the copied fields. -/
def splitSecond (c : VideoClip) (t : ℚ) (freshId : String) : VideoClip :=
  { id := freshId
    startTime := t
    duration := c.duration - (t - c.startTime)
    name := c.name
    type := c.type
    text := c.text
    titleStyle := c.titleStyle
    source := c.source
    width := c.width
    height := c.height }

/-- `findIndex` on the id followed by `splice(idx, 1, clipA, clipB)`: the first
clip carrying the target id is replaced in place by the two given clips. -/
def replaceAtId : List VideoClip → String → VideoClip → VideoClip → List VideoClip
  | [], _, _, _ => []
  | c :: rest, targetId, a, b =>
    if c.id = targetId then a :: b :: rest else c :: replaceAtId rest targetId a b

/-- `handleSplit`: find the first clip whose open interval strictly contains
the current time; do nothing when there is none or when either resulting half
would be shorter than 0.1 s; otherwise replace the found clip in place by the
two halves, the second one under a fresh id. -/
def splitClip (clips : List VideoClip) (t : ℚ) (freshId : String) : List VideoClip :=
  match clips.find? (clipContainsOpen t) with
  | none => clips
  | some c =>
    if t - c.startTime < 1/10 ∨ c.duration - (t - c.startTime) < 1/10 then clips
    else replaceAtId clips c.id (splitFirst c t) (splitSecond c t freshId)

/-- Drag mode of a clip/zoom drag. -/
inductive DragMode where
  | move
  | resize
deriving DecidableEq, Repr

/-- Which track the dragged item lives on. -/
inductive DragKind where
  | zoom
  | clip
deriving DecidableEq, Repr

/-- Payload of a clip/zoom drag (`{type, id, mode, startX, initialStart,
initialDuration}`). -/
structure ItemDrag where
  kind : DragKind
  id : String
  mode : DragMode
  startX : ℚ
  initialStart : ℚ
  initialDuration : ℚ
deriving DecidableEq, Repr

/-- `DragState`: either the playhead scrub or a clip/zoom drag. -/
inductive DragState where
  | playhead
  | item (d : ItemDrag)
deriving DecidableEq, Repr

/-- The slice of the editor state the interaction state machine touches:
the two timelines, the transient drag state and the playhead time. -/
structure EditorState where
  zooms : List ZoomEvent
  clips : List VideoClip
  dragState : Option DragState
  currentTime : ℚ
deriving DecidableEq, Repr

/-- `onZoomInteraction`: pointer-down on a zoom body or handle.  Re-pressing
the same id in the same mode while that zoom is being dragged clears the drag
state; otherwise a fresh zoom drag is armed. -/
def onZoomInteraction (st : EditorState) (id : String) (mode : DragMode)
    (contentX start dur : ℚ) : EditorState :=
  { st with dragState :=
      match st.dragState with
      | some (DragState.item d) =>
        if d.kind = DragKind.zoom ∧ d.id = id ∧ d.mode = mode then none
        else some (DragState.item
          { kind := DragKind.zoom, id := id, mode := mode, startX := contentX
            initialStart := start, initialDuration := dur })
      | _ => some (DragState.item
          { kind := DragKind.zoom, id := id, mode := mode, startX := contentX
            initialStart := start, initialDuration := dur }) }

/-- `onClipInteraction`: same toggle-or-arm behaviour for clip drags. -/
def onClipInteraction (st : EditorState) (id : String) (mode : DragMode)
    (contentX start dur : ℚ) : EditorState :=
  { st with dragState :=
      match st.dragState with
      | some (DragState.item d) =>
        if d.kind = DragKind.clip ∧ d.id = id ∧ d.mode = mode then none
        else some (DragState.item
          { kind := DragKind.clip, id := id, mode := mode, startX := contentX
            initialStart := start, initialDuration := dur })
      | _ => some (DragState.item
          { kind := DragKind.clip, id := id, mode := mode, startX := contentX
            initialStart := start, initialDuration := dur }) }

/-- One mutation applied by the window `mousemove` handler while a drag is
active, given the content-space x coordinate of the pointer.  A playhead drag
scrubs the clamped time; an item drag converts the pixel delta to a time
delta via the timeline scale and rewrites the dragged item. -/
def handleMouseMove (st : EditorState)
    (relativeX timelineScale timelineDuration : ℚ) : EditorState :=
  match st.dragState with
  | none => st
  | some DragState.playhead =>
    let trackWidth := timelineDuration * timelineScale
    let clampedX := max 0 (min trackWidth relativeX)
    { st with currentTime := clampedX / timelineScale }
  | some (DragState.item d) =>
    let timeDelta := (relativeX - d.startX) / timelineScale
    match d.kind with
    | DragKind.zoom =>
      { st with zooms := st.zooms.map (fun z =>
          if z.id = d.id then
            match d.mode with
            | DragMode.move => { z with startTime := max 0 (d.initialStart + timeDelta) }
            | DragMode.resize => { z with duration := max (1/2) (d.initialDuration + timeDelta) }
          else z) }
    | DragKind.clip =>
      { st with clips := st.clips.map (fun c =>
          if c.id = d.id then
            match d.mode with
            | DragMode.move => { c with startTime := max 0 (d.initialStart + timeDelta) }
            | DragMode.resize => { c with duration := max (1/2) (d.initialDuration + timeDelta) }
          else c) }

/-- The window `mouseup` handler: it clears the drag state only when the
playhead is being scrubbed. -/
def handleMouseUp (st : EditorState) : EditorState :=
  match st.dragState with
  | some DragState.playhead => { st with dragState := none }
  | _ => st

/-- `handleScrubStart`: pointer-down on the track background.  An in-progress
clip/zoom drag is merely cancelled; otherwise the playhead jumps to the
clamped pointer time and a playhead drag starts. -/
def handleScrubStart (st : EditorState)
    (relativeX timelineScale timelineDuration : ℚ) : EditorState :=
  match st.dragState with
  | some (DragState.item _) => { st with dragState := none }
  | _ =>
    let trackWidth := timelineDuration * timelineScale
    let clampedX := max 0 (min trackWidth relativeX)
    { st with currentTime := clampedX / timelineScale
              dragState := some DragState.playhead
              }

/-- JavaScript `v || d` on an optional numeric field: the default replaces
both a missing value and `0`. -/
def jsOr (v : Option ℚ) (d : ℚ) : ℚ :=
  match v with
  | none => d
  | some w => if w = 0 then d else w

/-- Aspect-ratio policy of the canvas frame. -/
inductive AspectPolicy where
  | auto
  | r16x9
  | r9x16
  | r1x1
  | r4x3
  | r21x9
deriving DecidableEq, Repr

/-- A width/height pair. -/
structure Dimensions where
  width : ℚ
  height : ℚ
deriving DecidableEq, Repr

/-- `getContainerDimensions` of `EditorCanvas`: fixed pairs for the fixed
policies; for `Auto` with an active clip, base width 800 and the
equal-margins height `W * (s * R + (1 - s))` with `s = min(contentScale, 1)`
and `R = (clipH + headerH) / clipW`. -/
def getContainerDimensions (policy : AspectPolicy) (activeClip : Option VideoClip)
    (showWindowFrame : Bool) (contentScale : ℚ) : Dimensions :=
  match policy with
  | AspectPolicy.auto =>
    match activeClip with
    | none => { width := 800, height := 450 }
    | some clip =>
      let headerH : ℚ := if showWindowFrame then 32 else 0
      let clipW := jsOr clip.width 1920
      let clipH := jsOr clip.height 1080
      let contentFrac := (clipH + headerH) / clipW
      let targetW : ℚ := 800
      let effectiveScale := min contentScale 1
      { width := targetW
        height := targetW * (effectiveScale * contentFrac + (1 - effectiveScale)) }
  | AspectPolicy.r16x9 => { width := 800, height := 450 }
  | AspectPolicy.r9x16 => { width := 360, height := 640 }
  | AspectPolicy.r1x1 => { width := 500, height := 500 }
  | AspectPolicy.r4x3 => { width := 640, height := 480 }
  | AspectPolicy.r21x9 => { width := 800, height := 340 }

/-- Result of the contain fit: outer window size plus the content height
below the header. -/
structure Fitted where
  width : ℚ
  height : ℚ
  contentHeight : ℚ
deriving DecidableEq, Repr

/-- `getFittedDimensions` of `EditorCanvas`: fit by width first; when the
resulting total height overflows the container height by more than half a
pixel, refit by height. -/
def getFittedDimensions (activeClip : Option VideoClip) (showWindowFrame : Bool)
    (containerWidth containerHeight : ℚ) : Fitted :=
  match activeClip with
  | none =>
    { width := containerWidth, height := containerHeight, contentHeight := containerHeight }
  | some clip =>
    let headerH : ℚ := if showWindowFrame then 32 else 0
    let clipW := jsOr clip.width 1920
    let clipH := jsOr clip.height 1080
    let clipAspect := clipW / clipH
    let w := containerWidth
    let contentH := w / clipAspect
    let h := contentH + headerH
    if h > containerHeight + 1/2 then
      { width := (containerHeight - headerH) * clipAspect
        height := containerHeight
        contentHeight := containerHeight - headerH }
    else
      { width := w, height := h, contentHeight := contentH }

/-- `MediaRecorder.state`. -/
inductive RecorderState where
  | inactive
  | recording
  | paused
deriving DecidableEq, Repr

/-- The slice of playback state touched by one animation-frame callback. -/
structure PlaybackState where
  currentTime : ℚ
  isPlaying : Bool
  recorder : Option RecorderState
deriving DecidableEq, Repr

/-- One `animate` callback tick with a known elapsed delta: while playing,
advance the clock; when the advanced clock reaches the timeline duration,
stop playing, stop a non-inactive export recorder and reset the clock to 0.
`MediaRecorder.stop()` drives the recorder to `inactive`. -/
def animateTick (st : PlaybackState) (deltaTime timelineDuration : ℚ) : PlaybackState :=
  if st.isPlaying = false then st
  else
    let next := st.currentTime + deltaTime
    if timelineDuration ≤ next then
      { currentTime := 0
        isPlaying := false
        recorder :=
          match st.recorder with
          | some s => if s = RecorderState.inactive then some s else some RecorderState.inactive
          | none => none }
    else { st with currentTime := next }

/-- Window bounds used to normalize pointer samples. -/
structure Bounds where
  x : ℚ
  y : ℚ
  width : ℚ
  height : ℚ
deriving DecidableEq, Repr

/-- A collected, normalized pointer sample. -/
structure CursorSample where
  x : ℚ
  y : ℚ
  time : ℚ
deriving DecidableEq, Repr

/-- The `onMousePosition` callback of `captureEditedTimeline`: with no bounds
the sample is ignored; the normalized coordinates are `(p - origin) / extent`
per axis, and a non-finite normalization — which, over the reals, arises
exactly from a zero extent — is dropped; otherwise the sample is stored with
both coordinates clamped to `[0,1]` and the time relative to capture start in
seconds. -/
def onMouseSample (px py : ℚ) (bounds : Option Bounds) (now captureStart : ℚ) :
    Option CursorSample :=
  match bounds with
  | none => none
  | some b =>
    if b.width = 0 ∨ b.height = 0 then none
    else
      let t := (now - captureStart) / 1000
      let nx := (px - b.x) / b.width
      let ny := (py - b.y) / b.height
      some { x := max 0 (min 1 nx), y := max 0 (min 1 ny), time := t }

/-- The spec scenario clip `{start:0, duration:10}` used as concrete input. -/
def cDemo : VideoClip :=
  { id := "1"
    startTime := 0
    duration := 10
    name := "Demo"
    type := ClipType.video
    text := none
    titleStyle := none
    source := none
    width := none
    height := none }

/-- Concrete zoom used by the interaction scenarios. -/
def zDemo : ZoomEvent :=
  { id := "z1", startTime := 2, duration := 3, x := 50, y := 50, scale := 2 }

/-- Scenario start state: one zoom at `[2,5]`, no drag in progress. -/
def stDemo : EditorState :=
  { zooms := [zDemo], clips := [], dragState := none, currentTime := 0 }

/-- Scenario: press the zoom body (move mode), drag the pointer 80 px to the
right at timeline scale 80, then press the same zoom in the same mode again
without releasing in between. -/
def stToggled : EditorState :=
  onZoomInteraction
    (handleMouseMove (onZoomInteraction stDemo "z1" DragMode.move 100 2 3) 180 80 15)
    "z1" DragMode.move 180 3 3

/-- A state in the middle of a zoom move drag. -/
def stDragging : EditorState :=
  { zooms := [zDemo]
    clips := []
    dragState := some (DragState.item
      { kind := DragKind.zoom, id := "z1", mode := DragMode.move, startX := 100
        initialStart := 2, initialDuration := 3 })
    currentTime := 0 }

/-- A state in the middle of a zoom resize drag. -/
def stResizing : EditorState :=
  { zooms := [zDemo]
    clips := []
    dragState := some (DragState.item
      { kind := DragKind.zoom, id := "z1", mode := DragMode.resize, startX := 100
        initialStart := 2, initialDuration := 3 })
    currentTime := 0 }

/-- A clip whose native size makes the width-fit total height land 0.3 px
above an 800 x 450 container. -/
def cTall : VideoClip :=
  { id := "t"
    startTime := 0
    duration := 10
    name := "Tall"
    type := ClipType.video
    text := none
    titleStyle := none
    source := none
    width := some 8000
    height := some 4503 }

/-- Playback state 1 s before the end of a 15 s timeline, with an export
recorder running. -/
def pbDemo : PlaybackState :=
  { currentTime := 14
    isPlaying := true
    recorder := some RecorderState.recording }

/-- C1: the active-zoom resolution returns the first event in list order whose
closed interval `[startTime, startTime + duration]` contains the playback
time; since the result is a single optional event, at most one zoom is ever
reported active at an instant, even when events overlap. -/
theorem activeZoom_first_containing (zooms : List ZoomEvent) (t : ℚ) :
    activeZoom zooms t = (zooms.filter (zoomContains t)).head? := by
  induction zooms with
  | nil => rfl
  | cons z zs ih =>
    by_cases h : zoomContains t z
    · simp [activeZoom, List.find?_cons, List.filter_cons, h]
    · rw [Bool.not_eq_true] at h
      simp only [activeZoom, List.find?_cons, List.filter_cons, h,
        Bool.false_eq_true, if_false] at ih ⊢
      exact ih

/-- C2: for an active zoom with coordinates in `[0,100]`, scale at least 1 and
nonnegative container dimensions, the camera target translation is the clamp
of the ideal translation `(-((x-50)/100*W)*s, -((y-50)/100*H)*s)` to the box
`±(dimension/2)*(scale-1)` per axis, hence bounded by that box; the target
scale is the event scale, and with no active zoom the target is
`(0, 0, contentScale)`. -/
theorem cameraTarget_clamped (z : ZoomEvent) (W H cs : ℚ)
    (hx0 : 0 ≤ z.x) (hx1 : z.x ≤ 100) (hy0 : 0 ≤ z.y) (hy1 : z.y ≤ 100)
    (hs : 1 ≤ z.scale) (hW : 0 ≤ W) (hH : 0 ≤ H) :
    (cameraTarget (some z) W H cs).tx
        = max (-((W / 2) * (z.scale - 1)))
            (min ((W / 2) * (z.scale - 1)) (-(((z.x - 50) / 100) * W) * z.scale)) ∧
    (cameraTarget (some z) W H cs).ty
        = max (-((H / 2) * (z.scale - 1)))
            (min ((H / 2) * (z.scale - 1)) (-(((z.y - 50) / 100) * H) * z.scale)) ∧
    (cameraTarget (some z) W H cs).scale = z.scale ∧
    |(cameraTarget (some z) W H cs).tx| ≤ (W / 2) * (z.scale - 1) ∧
    |(cameraTarget (some z) W H cs).ty| ≤ (H / 2) * (z.scale - 1) ∧
    cameraTarget none W H cs = { tx := 0, ty := 0, scale := cs } := by
  have htx : (cameraTarget (some z) W H cs).tx
      = max (-((W / 2) * (z.scale - 1)))
          (min ((W / 2) * (z.scale - 1)) (-(((z.x - 50) / 100) * W) * z.scale)) := rfl
  have hty : (cameraTarget (some z) W H cs).ty
      = max (-((H / 2) * (z.scale - 1)))
          (min ((H / 2) * (z.scale - 1)) (-(((z.y - 50) / 100) * H) * z.scale)) := rfl
  have hmX : 0 ≤ (W / 2) * (z.scale - 1) := mul_nonneg (by linarith) (by linarith)
  have hmY : 0 ≤ (H / 2) * (z.scale - 1) := mul_nonneg (by linarith) (by linarith)
  refine ⟨htx, hty, rfl, ?_, ?_, rfl⟩
  · rw [htx, abs_le]
    exact ⟨le_max_left _ _, max_le (by linarith) (min_le_left _ _)⟩
  · rw [hty, abs_le]
    exact ⟨le_max_left _ _, max_le (by linarith) (min_le_left _ _)⟩

/-- Witness for C2 at the zoom `{x:80, y:10, scale:2}` in an 800 x 450
container: the clamped target x translation is bounded by `400 * 1`. -/
theorem cameraTarget_clamped_witness :
    |(cameraTarget (some { id := "z1", startTime := 2, duration := 3, x := 80, y := 10, scale := 2 })
        800 450 1).tx| ≤ (800 / 2) * (2 - 1) :=
  (cameraTarget_clamped
      { id := "z1", startTime := 2, duration := 3, x := 80, y := 10, scale := 2 }
      800 450 1 (by norm_num) (by norm_num) (by norm_num) (by norm_num)
      (by norm_num) (by norm_num) (by norm_num)).2.2.2.1

/-- C3: splitting is a no-op when no clip strictly contains the split time or
when either half of the (first) containing clip would be shorter than 0.1 s;
otherwise the containing clip is replaced in place by a first half keeping its
id and start and a second half under the fresh id starting at the split time,
with durations summing to the original, the combined interval equal to the
original interval, and all content fields copied. -/
theorem splitClip_spec (clips : List VideoClip) (t : ℚ) (freshId : String) :
    ((∀ c ∈ clips, clipContainsOpen t c = false) → splitClip clips t freshId = clips) ∧
    (∀ c, clips.find? (clipContainsOpen t) = some c →
      ((t - c.startTime < 1/10 ∨ c.startTime + c.duration - t < 1/10) →
        splitClip clips t freshId = clips) ∧
      (1/10 ≤ t - c.startTime → 1/10 ≤ c.startTime + c.duration - t →
        splitClip clips t freshId
            = replaceAtId clips c.id (splitFirst c t) (splitSecond c t freshId) ∧
        (splitFirst c t).id = c.id ∧
        (splitFirst c t).startTime = c.startTime ∧
        (splitFirst c t).duration + (splitSecond c t freshId).duration = c.duration ∧
        (splitSecond c t freshId).startTime = c.startTime + (splitFirst c t).duration ∧
        (splitSecond c t freshId).startTime + (splitSecond c t freshId).duration
            = c.startTime + c.duration ∧
        (splitSecond c t freshId).id = freshId ∧
        (splitSecond c t freshId).type = c.type ∧
        (splitSecond c t freshId).name = c.name ∧
        (splitSecond c t freshId).text = c.text ∧
        (splitSecond c t freshId).titleStyle = c.titleStyle ∧
        (splitSecond c t freshId).source = c.source ∧
        (splitSecond c t freshId).width = c.width ∧
        (splitSecond c t freshId).height = c.height)) := by
  constructor
  · intro hall
    have hnone : clips.find? (clipContainsOpen t) = none :=
      List.find?_eq_none.mpr (fun c hc => by simp [hall c hc])
    simp [splitClip, hnone]
  · intro c hc
    have hsplit : splitClip clips t freshId
        = if t - c.startTime < 1/10 ∨ c.duration - (t - c.startTime) < 1/10 then clips
          else replaceAtId clips c.id (splitFirst c t) (splitSecond c t freshId) := by
      unfold splitClip
      rw [hc]
    constructor
    · intro hsmall
      have hcond : t - c.startTime < 1/10 ∨ c.duration - (t - c.startTime) < 1/10 := by
        rcases hsmall with h | h
        · exact Or.inl h
        · exact Or.inr (by linarith)
      rw [hsplit, if_pos hcond]
    · intro h1 h2
      have hcond : ¬ (t - c.startTime < 1/10 ∨ c.duration - (t - c.startTime) < 1/10) := by
        push_neg
        exact ⟨h1, by linarith⟩
      refine ⟨?_, rfl, rfl, ?_, ?_, ?_, rfl, rfl, rfl, rfl, rfl, rfl, rfl, rfl⟩
      · rw [hsplit, if_neg hcond]
      · show (t - c.startTime) + (c.duration - (t - c.startTime)) = c.duration
        ring
      · show t = c.startTime + (t - c.startTime)
        ring
      · show t + (c.duration - (t - c.startTime)) = c.startTime + c.duration
        ring

/-- Witness for C3: the spec scenario, a clip `{start:0, duration:10}` split
at `t = 4`, is replaced in place by its two halves. -/
theorem splitClip_spec_witness :
    splitClip [cDemo] 4 "fresh"
      = replaceAtId [cDemo] cDemo.id (splitFirst cDemo 4) (splitSecond cDemo 4 "fresh") :=
  (((splitClip_spec [cDemo] 4 "fresh").2 cDemo
      (by simp [cDemo, clipContainsOpen, List.find?_cons]; norm_num)).2
      (by norm_num [cDemo]) (by norm_num [cDemo])).1

/-- Counterexample to C4: press the zoom `{start:2}` in move mode, drag 80 px
right at timeline scale 80 (its start time becomes 3), then press the same
zoom in the same mode again.  The drag state does return to Idle, but the
zoom keeps the moved start time 3 — the timeline is not restored to its
pre-drag contents, so deltas applied during the drag are retained. -/
theorem dragToggle_retains_mutation :
    stToggled.dragState = none ∧
    stToggled.zooms
      = [{ id := "z1", startTime := 3, duration := 3, x := 50, y := 50, scale := 2 }] ∧
    stDemo.zooms
      = [{ id := "z1", startTime := 2, duration := 3, x := 50, y := 50, scale := 2 }] := by
  refine ⟨?_, ?_, rfl⟩
  · simp [stToggled, stDemo, zDemo, onZoomInteraction, handleMouseMove]
  · simp [stToggled, stDemo, zDemo, onZoomInteraction, handleMouseMove]
    norm_num [max_def]

/-- C4 amended: re-pressing the id of the dragged item in its current mode clears
the drag state to Idle and applies no further deltas — the zoom and clip
timelines are exactly those at the instant of cancellation — but mutations
already applied during the drag are retained rather than rolled back to the
pre-drag values. -/
theorem dragToggle_cancel (st : EditorState) (d : ItemDrag) (cx s dur : ℚ)
    (h : st.dragState = some (DragState.item d)) :
    (d.kind = DragKind.zoom →
      (onZoomInteraction st d.id d.mode cx s dur).dragState = none ∧
      (onZoomInteraction st d.id d.mode cx s dur).zooms = st.zooms ∧
      (onZoomInteraction st d.id d.mode cx s dur).clips = st.clips) ∧
    (d.kind = DragKind.clip →
      (onClipInteraction st d.id d.mode cx s dur).dragState = none ∧
      (onClipInteraction st d.id d.mode cx s dur).zooms = st.zooms ∧
      (onClipInteraction st d.id d.mode cx s dur).clips = st.clips) := by
  constructor
  · intro hk
    refine ⟨?_, rfl, rfl⟩
    simp [onZoomInteraction, h, hk]
  · intro hk
    refine ⟨?_, rfl, rfl⟩
    simp [onClipInteraction, h, hk]

/-- Witness for C4 (amended): cancelling the in-progress zoom move drag by a
second press leaves Idle. -/
theorem dragToggle_cancel_witness :
    (onZoomInteraction stDragging "z1" DragMode.move 180 3 3).dragState = none ∧
    (onZoomInteraction stDragging "z1" DragMode.move 180 3 3).zooms = stDragging.zooms :=
  have h := (dragToggle_cancel stDragging
      { kind := DragKind.zoom, id := "z1", mode := DragMode.move, startX := 100
        initialStart := 2, initialDuration := 3 } 180 3 3 rfl).1 rfl
  ⟨h.1, h.2.1⟩

/-- Counterexample to C5: releasing the pointer while a zoom drag is active
does not return the state machine to Idle — the `mouseup` handler clears the
drag only for the playhead, so the zoom drag survives the release. -/
theorem mouseUp_leaves_item_drag :
    (handleMouseUp stDragging).dragState
      = some (DragState.item
          { kind := DragKind.zoom, id := "z1", mode := DragMode.move, startX := 100
            initialStart := 2, initialDuration := 3 }) := rfl

/-- C5 amended: releasing the pointer ends only a playhead scrub (drag state
becomes null and nothing else changes); a clip or zoom drag survives pointer
release entirely unchanged — it ends only when explicitly toggled off or when
a pointer-down lands on the track background — with the last applied mutation
left committed. -/
theorem handleMouseUp_spec (st : EditorState) :
    handleMouseUp st
      = if st.dragState = some DragState.playhead
        then { st with dragState := none } else st := by
  obtain ⟨zs, cs, ds, ct⟩ := st
  cases ds with
  | none => simp [handleMouseUp]
  | some d =>
    cases d with
    | playhead => simp [handleMouseUp]
    | item i => simp [handleMouseUp]

/-- C6: while a clip or zoom drag is active, a pointer-move at content x
`relX` converts the pixel delta `relX - startX` to the time delta
`(relX - startX) / timelineScale`; move mode rewrites the start
time of the dragged id to `max 0 (initialStart + dt)` and resize mode rewrites its duration to
`max 0.5 (initialDuration + dt)`, leaving every other item untouched. -/
theorem dragDelta_spec (st : EditorState) (id : String)
    (sx is0 id0 relX scale tdur : ℚ) :
    (st.dragState = some (DragState.item
        { kind := DragKind.zoom, id := id, mode := DragMode.move, startX := sx
          initialStart := is0, initialDuration := id0 }) →
      (handleMouseMove st relX scale tdur).zooms
        = st.zooms.map (fun z =>
            if z.id = id
            then { z with startTime := max 0 (is0 + (relX - sx) / scale) } else z)) ∧
    (st.dragState = some (DragState.item
        { kind := DragKind.zoom, id := id, mode := DragMode.resize, startX := sx
          initialStart := is0, initialDuration := id0 }) →
      (handleMouseMove st relX scale tdur).zooms
        = st.zooms.map (fun z =>
            if z.id = id
            then { z with duration := max (1/2) (id0 + (relX - sx) / scale) } else z)) ∧
    (st.dragState = some (DragState.item
        { kind := DragKind.clip, id := id, mode := DragMode.move, startX := sx
          initialStart := is0, initialDuration := id0 }) →
      (handleMouseMove st relX scale tdur).clips
        = st.clips.map (fun c =>
            if c.id = id
            then { c with startTime := max 0 (is0 + (relX - sx) / scale) } else c)) ∧
    (st.dragState = some (DragState.item
        { kind := DragKind.clip, id := id, mode := DragMode.resize, startX := sx
          initialStart := is0, initialDuration := id0 }) →
      (handleMouseMove st relX scale tdur).clips
        = st.clips.map (fun c =>
            if c.id = id
            then { c with duration := max (1/2) (id0 + (relX - sx) / scale) } else c)) := by
  refine ⟨?_, ?_, ?_, ?_⟩ <;> intro h <;> simp [handleMouseMove, h]

/-- Witness for C6: the spec scenario — a zoom resize drag with an 80 px
delta at `pixelsPerSecond = 80` grows the duration from 3 by exactly 1.0. -/
theorem dragDelta_spec_witness :
    (handleMouseMove stResizing 180 80 15).zooms
      = [{ id := "z1", startTime := 2, duration := 4, x := 50, y := 50, scale := 2 }] := by
  have h := (dragDelta_spec stResizing "z1" 100 2 3 180 80 15).2.1 rfl
  rw [h]
  simp [stResizing, zDemo]
  norm_num [max_def]

/-- C7: under the `Auto` aspect policy with an active clip the container is
800 wide and `800 * (s * R + (1 - s))` tall, with `s = min(contentScale, 1)`
and `R = (clipHeight + headerHeight) / clipWidth` (header 32 when the window
frame is shown, else 0); with `contentScale = 1` and no frame the height is
exactly `800 * (clipHeight / clipWidth)`, and with `contentScale = 0` the
height degenerates to the square 800. -/
theorem containerAuto_spec (clip : VideoClip) (swf : Bool) (cs : ℚ) :
    (getContainerDimensions AspectPolicy.auto (some clip) swf cs).width = 800 ∧
    (getContainerDimensions AspectPolicy.auto (some clip) swf cs).height
      = 800 * (min cs 1
          * ((jsOr clip.height 1080 + (if swf then (32:ℚ) else 0)) / jsOr clip.width 1920)
          + (1 - min cs 1)) ∧
    (getContainerDimensions AspectPolicy.auto (some clip) false 1).height
      = 800 * (jsOr clip.height 1080 / jsOr clip.width 1920) ∧
    (getContainerDimensions AspectPolicy.auto (some clip) swf 0).height = 800 := by
  refine ⟨rfl, rfl, ?_, ?_⟩
  · show (800:ℚ) * (min 1 1 * ((jsOr clip.height 1080 + (0:ℚ)) / jsOr clip.width 1920)
        + (1 - min 1 1)) = 800 * (jsOr clip.height 1080 / jsOr clip.width 1920)
    norm_num
  · show (800:ℚ) * (min 0 1
        * ((jsOr clip.height 1080 + (if swf then (32:ℚ) else 0)) / jsOr clip.width 1920)
        + (1 - min 0 1)) = 800
    norm_num

/-- Counterexample to C8: a clip of native size 8000 x 4503 in an 800 x 450
container without a window frame width-fits to a total height of 450.3.
That exceeds the container height 450, yet the half-pixel tolerance keeps the
width branch, so the returned total height also exceeds the container
height — refuting both the refit trigger and the height bound as claimed. -/
theorem fitted_height_exceeds_container :
    (getFittedDimensions (some cTall) false 800 450).height = 4503/10 ∧
    (450:ℚ) < 4503/10 := by
  constructor
  · norm_num [getFittedDimensions, cTall, jsOr]
  · norm_num

/-- C8 amended: the contain fit computes by width first and refits by height
only when the width-fit total height exceeds the container height by more
than a half-pixel tolerance (0.5); in both branches the content dimensions
preserve the native aspect ratio exactly and the total height is the content
height plus the header, and the returned total height never exceeds the
container height plus that 0.5 tolerance. -/
theorem getFitted_spec (clip : VideoClip) (swf : Bool) (cw ch : ℚ)
    (hW : 0 < jsOr clip.width 1920) (hH : 0 < jsOr clip.height 1080) :
    (getFittedDimensions (some clip) swf cw ch).width * jsOr clip.height 1080
        = (getFittedDimensions (some clip) swf cw ch).contentHeight * jsOr clip.width 1920 ∧
    (getFittedDimensions (some clip) swf cw ch).height
        = (getFittedDimensions (some clip) swf cw ch).contentHeight
          + (if swf then (32:ℚ) else 0) ∧
    (getFittedDimensions (some clip) swf cw ch).height ≤ ch + 1/2 ∧
    (cw / (jsOr clip.width 1920 / jsOr clip.height 1080) + (if swf then (32:ℚ) else 0)
        ≤ ch + 1/2 →
      (getFittedDimensions (some clip) swf cw ch).width = cw) ∧
    (ch + 1/2
        < cw / (jsOr clip.width 1920 / jsOr clip.height 1080) + (if swf then (32:ℚ) else 0) →
      (getFittedDimensions (some clip) swf cw ch).height = ch) := by
  have hfit : getFittedDimensions (some clip) swf cw ch
      = if cw / (jsOr clip.width 1920 / jsOr clip.height 1080)
            + (if swf then (32:ℚ) else 0) > ch + 1/2
        then { width := (ch - (if swf then (32:ℚ) else 0))
                  * (jsOr clip.width 1920 / jsOr clip.height 1080)
               height := ch
               contentHeight := ch - (if swf then (32:ℚ) else 0) }
        else { width := cw
               height := cw / (jsOr clip.width 1920 / jsOr clip.height 1080)
                  + (if swf then (32:ℚ) else 0)
               contentHeight := cw / (jsOr clip.width 1920 / jsOr clip.height 1080) } := rfl
  have hWne : jsOr clip.width 1920 ≠ 0 := ne_of_gt hW
  have hHne : jsOr clip.height 1080 ≠ 0 := ne_of_gt hH
  by_cases hov : cw / (jsOr clip.width 1920 / jsOr clip.height 1080)
      + (if swf then (32:ℚ) else 0) > ch + 1/2
  · rw [hfit, if_pos hov]
    refine ⟨?_, by ring, by show ch ≤ ch + 1/2; linarith, ?_, fun _ => rfl⟩
    · show (ch - (if swf then (32:ℚ) else 0)) * (jsOr clip.width 1920 / jsOr clip.height 1080)
          * jsOr clip.height 1080
        = (ch - (if swf then (32:ℚ) else 0)) * jsOr clip.width 1920
      field_simp
    · intro hle
      exact absurd hov (not_lt.mpr hle)
  · rw [hfit, if_neg hov]
    refine ⟨?_, rfl, by simpa using not_lt.mp hov, fun _ => rfl, ?_⟩
    · show cw * jsOr clip.height 1080
          = cw / (jsOr clip.width 1920 / jsOr clip.height 1080) * jsOr clip.width 1920
      field_simp
    · intro hlt
      exact absurd hlt (not_lt.mpr (not_lt.mp hov))

/-- Witness for C8 (amended): the default 1920 x 1080 clip in an 800 x 450
container preserves its aspect ratio exactly under the contain fit. -/
theorem getFitted_spec_witness :
    (getFittedDimensions (some cDemo) false 800 450).width * jsOr cDemo.height 1080
        = (getFittedDimensions (some cDemo) false 800 450).contentHeight
          * jsOr cDemo.width 1920 ∧
    (getFittedDimensions (some cDemo) false 800 450).height ≤ 450 + 1/2 :=
  have h := getFitted_spec cDemo false 800 450
      (by norm_num [cDemo, jsOr]) (by norm_num [cDemo, jsOr])
  ⟨h.1, h.2.2.1⟩

/-- C9: one animation tick taken while playing: when the advanced clock
reaches or passes the timeline duration, playback stops, a non-inactive
export recorder is driven to inactive, and the clock resets to 0 instead of
staying at the end; otherwise the clock simply advances, so the tick never
produces a time beyond the timeline duration. -/
theorem animateTick_spec (st : PlaybackState) (delta dur : ℚ)
    (hp : st.isPlaying = true) (hd : 0 ≤ dur) :
    (dur ≤ st.currentTime + delta →
      (animateTick st delta dur).currentTime = 0 ∧
      (animateTick st delta dur).isPlaying = false ∧
      ((animateTick st delta dur).recorder = none ∨
        (animateTick st delta dur).recorder = some RecorderState.inactive)) ∧
    (st.currentTime + delta < dur →
      (animateTick st delta dur).currentTime = st.currentTime + delta) ∧
    (animateTick st delta dur).currentTime ≤ dur := by
  have ha : animateTick st delta dur
      = if dur ≤ st.currentTime + delta
        then { currentTime := 0
               isPlaying := false
               recorder :=
                 match st.recorder with
                 | some s =>
                   if s = RecorderState.inactive then some s
                   else some RecorderState.inactive
                 | none => none }
        else { st with currentTime := st.currentTime + delta } := by
    unfold animateTick
    rw [hp]
    simp
  by_cases hend : dur ≤ st.currentTime + delta
  · rw [ha, if_pos hend]
    refine ⟨fun _ => ⟨rfl, rfl, ?_⟩, fun hlt => absurd hend (not_le.mpr hlt), hd⟩
    match st.recorder with
    | none => exact Or.inl rfl
    | some RecorderState.inactive => exact Or.inr rfl
    | some RecorderState.recording => exact Or.inr rfl
    | some RecorderState.paused => exact Or.inr rfl
  · rw [ha, if_neg hend]
    exact ⟨fun hge => absurd hge hend, fun _ => rfl, le_of_lt (not_le.mp hend)⟩

/-- Witness for C9: at 14 s with a 2 s delta against a 15 s timeline while an
export recorder is recording, the tick stops playback and resets to 0. -/
theorem animateTick_spec_witness :
    (animateTick pbDemo 2 15).currentTime = 0 ∧
    (animateTick pbDemo 2 15).isPlaying = false ∧
    (animateTick pbDemo 2 15).currentTime ≤ 15 :=
  have h := animateTick_spec pbDemo 2 15 rfl (by norm_num)
  have hend := h.1 (by norm_num [pbDemo])
  ⟨hend.1, hend.2.1, h.2.2⟩

/-- C10: every pointer sample actually stored during export capture has both
normalized coordinates clamped to `[0,1]` and a nonnegative time relative to
capture start; a sample whose normalization is not finite (zero-extent
bounds, the only way the rational model produces the non-finite JavaScript
division) or that arrives without bounds is dropped, never stored. -/
theorem mouseSample_normalized (px py : ℚ) (bounds : Option Bounds) (now cs : ℚ)
    (ht : cs ≤ now) :
    ∀ s, onMouseSample px py bounds now cs = some s →
      0 ≤ s.x ∧ s.x ≤ 1 ∧ 0 ≤ s.y ∧ s.y ≤ 1 ∧ 0 ≤ s.time := by
  intro s hs
  cases bounds with
  | none => simp [onMouseSample] at hs
  | some b =>
    have hb : onMouseSample px py (some b) now cs
        = if b.width = 0 ∨ b.height = 0 then none
          else some
            { x := max 0 (min 1 ((px - b.x) / b.width))
              y := max 0 (min 1 ((py - b.y) / b.height))
              time := (now - cs) / 1000 } := rfl
    rw [hb] at hs
    by_cases hz : b.width = 0 ∨ b.height = 0
    · rw [if_pos hz] at hs
      exact absurd hs (by simp)
    · rw [if_neg hz] at hs
      injection hs with hs
      subst hs
      refine ⟨le_max_left _ _, max_le (by norm_num) (min_le_left _ _),
        le_max_left _ _, max_le (by norm_num) (min_le_left _ _), ?_⟩
      exact div_nonneg (by linarith) (by norm_num)

/-- Witness for C10: pointer at `(250, -50)` in `100 x 100` bounds half a
second after capture start yields the stored, clamped sample `(1, 0)` at
time `0.5`. -/
theorem mouseSample_normalized_witness :
    0 ≤ (1:ℚ) ∧ (1:ℚ) ≤ 1 ∧ 0 ≤ (0:ℚ) ∧ (0:ℚ) ≤ 1 ∧ 0 ≤ (1/2:ℚ) :=
  mouseSample_normalized 250 (-50)
    (some { x := 0, y := 0, width := 100, height := 100 }) 500 0 (by norm_num)
    { x := 1, y := 0, time := 1/2 }
    (by norm_num [onMouseSample, max_def, min_def])
